import Mathlib

/-!
Verification of the promotion, comparison and cross-workspace import logic of
the `zenml-enterprise-mlops` repository.

The embedding follows the Python sources:
* `scripts/promote_model.py` — the Promotion Gate (`validate_promotion`) and the
  stage-conflict logic of the `promote_model` command;
* `src/pipelines/champion_challenger.py` — `compare_predictions` and the
  recommendation bucket of `generate_comparison_report`;
* `scripts/promote_cross_workspace.py` — `export_model`, `validate_for_promotion`,
  the validation-phase gating of `promote_cross_workspace`, and `import_model`;
* `src/pipelines/import_model.py` — `log_cross_workspace_metadata`;
* `governance/steps/model_validation.py` — `validate_model_performance`.

Python floats are embedded as rationals (`ℚ`); Python dicts of metrics as
association lists with first-match lookup; raised `ValueError`s as the `error`
case of `Except`.
-/

/-- A metrics map: metric name to value, mirroring the Python dict
`{metric_name: float}`. Keys are unique in a Python dict; lookup takes the
first match. -/
abbrev Metrics := List (String × ℚ)

/-- Dict lookup: `metrics.get(key)` returning `None` when absent. -/
def lookupMetric : Metrics → String → Option ℚ
  | [], _ => none
  | (k, v) :: rest, key => if k = key then some v else lookupMetric rest key

/-- `required_metrics = ["accuracy", "precision", "recall"]`
(`scripts/promote_model.py`, line 106). -/
def requiredMetrics : List String := ["accuracy", "precision", "recall"]

/-- The fixed per-stage threshold table of `validate_promotion`
(`scripts/promote_model.py`, lines 116–127), with `requirements.get(to_stage, {})`
yielding the empty table for any other stage. -/
def requirements (to_stage : String) : List (String × ℚ) :=
  if to_stage = "staging" then
    [("accuracy", 7/10), ("precision", 7/10), ("recall", 7/10)]
  else if to_stage = "production" then
    [("accuracy", 4/5), ("precision", 4/5), ("recall", 4/5)]
  else []

/-- `missing_metrics = [m for m in required_metrics if m not in metrics]`
(`scripts/promote_model.py`, line 107). -/
def missingOf (metrics : Metrics) : List String :=
  requiredMetrics.filter fun m => (lookupMetric metrics m).isNone

/-- The `failures` list collected by the threshold loop of `validate_promotion`
(`scripts/promote_model.py`, lines 132–144): one entry `(metric, actual, required)`
per below-threshold metric, in table order.  The `none` branch is unreachable in
the source (`metrics.get(metric)` is only consulted after the missing-metric
guard) and contributes nothing. -/
def thresholdFailuresOf (metrics : Metrics) (to_stage : String) :
    List (String × ℚ × ℚ) :=
  (requirements to_stage).filterMap fun p =>
    match lookupMetric metrics p.1 with
    | some actual => if actual < p.2 then some (p.1, actual, p.2) else none
    | none => none

/-- The two `ValueError` shapes `validate_promotion` can raise. -/
inductive PromotionError where
  | missingMetrics (missing : List String)
  | thresholdFailures (failures : List (String × ℚ × ℚ))
deriving DecidableEq, Repr

/-- `validate_promotion(model_version, to_stage)` (`scripts/promote_model.py`,
lines 89–154): raise on missing metrics first, then raise the aggregated
threshold failures, else return `True`. -/
def validate_promotion (metrics : Metrics) (to_stage : String) :
    Except PromotionError Bool :=
  if missingOf metrics ≠ [] then
    .error (.missingMetrics (missingOf metrics))
  else if thresholdFailuresOf metrics to_stage ≠ [] then
    .error (.thresholdFailures (thresholdFailuresOf metrics to_stage))
  else .ok true

/-! ### Helper lemmas on the Promotion Gate -/

theorem missingOf_eq_nil_iff (metrics : Metrics) :
    missingOf metrics = [] ↔
      ∀ m ∈ requiredMetrics, (lookupMetric metrics m).isSome := by
  simp [missingOf, List.filter_eq_nil_iff, Option.isNone_iff_eq_none,
    ← Option.ne_none_iff_isSome]

theorem missingOf_eq_nil_of_present (metrics : Metrics) (a p r : ℚ)
    (ha : lookupMetric metrics "accuracy" = some a)
    (hp : lookupMetric metrics "precision" = some p)
    (hr : lookupMetric metrics "recall" = some r) :
    missingOf metrics = [] := by
  simp [missingOf, requiredMetrics, ha, hp, hr]

theorem validate_promotion_error_of_missing (metrics : Metrics) (stage : String)
    (h : missingOf metrics ≠ []) :
    validate_promotion metrics stage = .error (.missingMetrics (missingOf metrics)) := by
  simp [validate_promotion, h]

theorem validate_promotion_ok_iff (metrics : Metrics) (stage : String) (t a p r : ℚ)
    (ha : lookupMetric metrics "accuracy" = some a)
    (hp : lookupMetric metrics "precision" = some p)
    (hr : lookupMetric metrics "recall" = some r)
    (hreq : requirements stage = [("accuracy", t), ("precision", t), ("recall", t)]) :
    validate_promotion metrics stage = .ok true ↔ (t ≤ a ∧ t ≤ p ∧ t ≤ r) := by
  have hmiss := missingOf_eq_nil_of_present metrics a p r ha hp hr
  by_cases h1 : a < t <;> by_cases h2 : p < t <;> by_cases h3 : r < t <;>
    simp [validate_promotion, hmiss, thresholdFailuresOf, hreq, ha, hp, hr,
      h1, h2, h3, ← not_lt]

/-! ### Claims about the Promotion Gate -/

/-- C1: for every metrics map containing accuracy, precision and recall, the
Promotion Gate (`validate_promotion`) passes for target stage `"staging"` iff
each of the three metrics is ≥ 0.70, and for target stage `"production"` iff
each is ≥ 0.80; a metric exactly equal to its threshold passes (boundary
inclusive, the comparison is `>=` not `>`). -/
theorem C1_promotion_gate_thresholds (metrics : Metrics) (a p r : ℚ)
    (ha : lookupMetric metrics "accuracy" = some a)
    (hp : lookupMetric metrics "precision" = some p)
    (hr : lookupMetric metrics "recall" = some r) :
    (validate_promotion metrics "staging" = .ok true ↔
      (7/10 ≤ a ∧ 7/10 ≤ p ∧ 7/10 ≤ r)) ∧
    (validate_promotion metrics "production" = .ok true ↔
      (4/5 ≤ a ∧ 4/5 ≤ p ∧ 4/5 ≤ r)) :=
  ⟨validate_promotion_ok_iff metrics "staging" (7/10) a p r ha hp hr (by rfl),
   validate_promotion_ok_iff metrics "production" (4/5) a p r ha hp hr (by rfl)⟩

/-- Witness for C1: metrics exactly at the staging thresholds pass staging
(boundary inclusive) and do not pass production. -/
theorem C1_promotion_gate_thresholds_witness :
    validate_promotion
      [("accuracy", 7/10), ("precision", 7/10), ("recall", 7/10)] "staging"
      = .ok true ∧
    validate_promotion
      [("accuracy", 7/10), ("precision", 7/10), ("recall", 7/10)] "production"
      ≠ .ok true := by
  have h := C1_promotion_gate_thresholds
    [("accuracy", 7/10), ("precision", 7/10), ("recall", 7/10)]
    (7/10) (7/10) (7/10) (by rfl) (by rfl) (by rfl)
  refine ⟨h.1.mpr (by norm_num), fun hc => ?_⟩
  have := h.2.mp hc
  norm_num at this

/-- C2: for every metrics map missing at least one of accuracy, precision,
recall, `validate_promotion` fails with the missing-metrics error (so no
threshold comparison is reached), for every target stage and regardless of the
values present, and the reported list contains exactly the missing required
metrics. -/
theorem C2_missing_metrics_error (metrics : Metrics) (stage : String)
    (h : ∃ m ∈ requiredMetrics, lookupMetric metrics m = none) :
    validate_promotion metrics stage
      = .error (.missingMetrics (missingOf metrics)) ∧
    (∀ m, m ∈ missingOf metrics ↔
      (m ∈ requiredMetrics ∧ lookupMetric metrics m = none)) := by
  obtain ⟨m, hm, hnone⟩ := h
  have hne : missingOf metrics ≠ [] := by
    intro hnil
    have := (missingOf_eq_nil_iff metrics).mp hnil m hm
    simp [hnone] at this
  exact ⟨validate_promotion_error_of_missing metrics stage hne,
    fun m' => by simp [missingOf, List.mem_filter, Option.isNone_iff_eq_none]⟩

/-- Witness for C2: a map with only accuracy present fails production promotion
with the missing-metrics error, and precision is reported missing. -/
theorem C2_missing_metrics_error_witness :
    validate_promotion [("accuracy", 99/100)] "production"
      = .error (.missingMetrics (missingOf [("accuracy", 99/100)])) ∧
    ("precision" ∈ missingOf [("accuracy", 99/100)] ↔
      ("precision" ∈ requiredMetrics ∧
        lookupMetric [("accuracy", 99/100)] "precision" = none)) := by
  have h := C2_missing_metrics_error [("accuracy", 99/100)] "production"
    ⟨"precision", by decide, by decide⟩
  exact ⟨h.1, h.2 "precision"⟩

/-- C7: any metrics map that passes the Promotion Gate for `"production"` also
passes it for `"staging"`: the thresholds are monotonically non-decreasing from
staging (0.70) to production (0.80). -/
theorem C7_production_pass_implies_staging_pass (metrics : Metrics)
    (h : validate_promotion metrics "production" = .ok true) :
    validate_promotion metrics "staging" = .ok true := by
  have hmiss : missingOf metrics = [] := by
    by_contra hne
    rw [validate_promotion_error_of_missing metrics "production" hne] at h
    exact absurd h (by simp)
  have hall := (missingOf_eq_nil_iff metrics).mp hmiss
  obtain ⟨a, ha⟩ :=
    Option.isSome_iff_exists.mp (hall "accuracy" (by decide))
  obtain ⟨p, hp⟩ :=
    Option.isSome_iff_exists.mp (hall "precision" (by decide))
  obtain ⟨r, hr⟩ :=
    Option.isSome_iff_exists.mp (hall "recall" (by decide))
  have hprod :=
    (validate_promotion_ok_iff metrics "production" (4/5) a p r ha hp hr
      (by rfl)).mp h
  exact (validate_promotion_ok_iff metrics "staging" (7/10) a p r ha hp hr
      (by rfl)).mpr
    ⟨le_trans (by norm_num) hprod.1, le_trans (by norm_num) hprod.2.1,
     le_trans (by norm_num) hprod.2.2⟩

/-- Witness for C7: `{accuracy: 0.85, precision: 0.82, recall: 0.88}` passes
production, hence (by the theorem) also staging. -/
theorem C7_production_pass_implies_staging_pass_witness :
    validate_promotion
      [("accuracy", 17/20), ("precision", 41/50), ("recall", 22/25)] "staging"
      = .ok true :=
  C7_production_pass_implies_staging_pass _
    ((validate_promotion_ok_iff _ "production" (4/5) (17/20) (41/50) (22/25)
      (by rfl) (by rfl) (by rfl) (by rfl)).mpr (by norm_num))

/-- C9: when all required metrics are present and at least one is below its
stage threshold, `validate_promotion` raises the single aggregated
threshold-failures error, whose list contains exactly the below-threshold
metrics, each with its actual and its required value. -/
theorem C9_threshold_failures_aggregated (metrics : Metrics) (stage : String)
    (a p r : ℚ)
    (ha : lookupMetric metrics "accuracy" = some a)
    (hp : lookupMetric metrics "precision" = some p)
    (hr : lookupMetric metrics "recall" = some r)
    (hbelow : ∃ mt ∈ requirements stage,
      ∃ v, lookupMetric metrics mt.1 = some v ∧ v < mt.2) :
    validate_promotion metrics stage
      = .error (.thresholdFailures (thresholdFailuresOf metrics stage)) ∧
    ∀ m v t, (m, v, t) ∈ thresholdFailuresOf metrics stage ↔
      ((m, t) ∈ requirements stage ∧ lookupMetric metrics m = some v ∧ v < t) := by
  have hmiss := missingOf_eq_nil_of_present metrics a p r ha hp hr
  have hchar : ∀ m v t, (m, v, t) ∈ thresholdFailuresOf metrics stage ↔
      ((m, t) ∈ requirements stage ∧ lookupMetric metrics m = some v ∧ v < t) := by
    intro m v t
    constructor
    · intro hmem
      obtain ⟨⟨qm, qt⟩, hq, hfq⟩ := List.mem_filterMap.mp hmem
      rcases hlook : lookupMetric metrics qm with _ | w
      · simp [hlook] at hfq
      · simp only [hlook] at hfq
        by_cases hw : w < qt
        · rw [if_pos hw] at hfq
          simp only [Option.some.injEq, Prod.mk.injEq] at hfq
          obtain ⟨h1, h2, h3⟩ := hfq
          subst h1; subst h2; subst h3
          exact ⟨hq, hlook, hw⟩
        · rw [if_neg hw] at hfq
          exact absurd hfq (by simp)
    · rintro ⟨hmem, hlook, hlt⟩
      exact List.mem_filterMap.mpr ⟨(m, t), hmem, by simp [hlook, hlt]⟩
  have hne : thresholdFailuresOf metrics stage ≠ [] := by
    obtain ⟨mt, hmem, v, hlook, hlt⟩ := hbelow
    exact List.ne_nil_of_mem ((hchar mt.1 v mt.2).mpr ⟨hmem, hlook, hlt⟩)
  refine ⟨by simp [validate_promotion, hmiss, hne], hchar⟩

/-- Witness for C9: `{accuracy: 0.75, precision: 0.72, recall: 0.78}` fails
production promotion with the aggregated threshold error, and accuracy appears
in the failure list with its actual (0.75) and required (0.80) values. -/
theorem C9_threshold_failures_aggregated_witness :
    validate_promotion
      [("accuracy", 3/4), ("precision", 18/25), ("recall", 39/50)] "production"
      = .error (.thresholdFailures (thresholdFailuresOf
          [("accuracy", 3/4), ("precision", 18/25), ("recall", 39/50)]
          "production")) ∧
    (("accuracy", (3/4 : ℚ), (4/5 : ℚ)) ∈ thresholdFailuresOf
        [("accuracy", 3/4), ("precision", 18/25), ("recall", 39/50)]
        "production" ↔
      (("accuracy", (4/5 : ℚ)) ∈ requirements "production" ∧
        lookupMetric [("accuracy", 3/4), ("precision", 18/25), ("recall", 39/50)]
          "accuracy" = some (3/4) ∧ (3/4 : ℚ) < 4/5)) := by
  have h := C9_threshold_failures_aggregated
    [("accuracy", 3/4), ("precision", 18/25), ("recall", 39/50)] "production"
    (3/4) (18/25) (39/50) (by rfl) (by rfl) (by rfl)
    ⟨("accuracy", 4/5), by exact List.mem_cons_self _ _, 3/4, by rfl, by norm_num⟩
  exact ⟨h.1, h.2 "accuracy" (3/4) (4/5)⟩

/-! ### Champion/Challenger Comparator
(`src/pipelines/champion_challenger.py`) -/

/-- The comparison dict built by `compare_predictions` (lines 160–178).
`total_samples` is `len(inference_data)`, which equals the prediction array
length; the two version strings, being opaque pass-throughs, are omitted. -/
structure Comparison where
  total_samples : ℕ
  agreement_rate : ℚ
  champion_positive_rate : ℚ
  challenger_positive_rate : ℚ
  avg_probability_diff : ℚ
  max_probability_diff : ℚ
deriving Repr

/-- numpy `.max()` of an array: on a nonempty list this is the maximum element
(the source never applies it to an empty batch). -/
def npMax : List ℚ → ℚ
  | [] => 0
  | d :: ds => ds.foldl max d

/-- `compare_predictions` (`src/pipelines/champion_challenger.py`, lines
150–184): elementwise equality mean, prediction means, and mean/max of the
absolute probability differences. -/
def compare_predictions (champPred challPred : List ℤ)
    (champProb challProb : List ℚ) : Comparison :=
  { total_samples := champPred.length
  , agreement_rate :=
      (List.zipWith (fun a b => if a = b then (1:ℚ) else 0) champPred challPred).sum
        / champPred.length
  , champion_positive_rate := (champPred.map fun n => (n:ℚ)).sum / champPred.length
  , challenger_positive_rate := (challPred.map fun n => (n:ℚ)).sum / challPred.length
  , avg_probability_diff :=
      (List.zipWith (fun a b => |a - b|) champProb challProb).sum
        / champProb.length
  , max_probability_diff :=
      npMax (List.zipWith (fun a b => |a - b|) champProb challProb) }

/-- The recommendation bucket appended by `generate_comparison_report`
(lines 218–238); the surrounding report text is abstracted away to the bucket
label the report embeds. -/
def generate_comparison_report (c : Comparison) : String :=
  if 95/100 ≤ c.agreement_rate ∧ c.avg_probability_diff < 5/100 then
    "SAFE TO PROMOTE"
  else if 85/100 ≤ c.agreement_rate then "REVIEW RECOMMENDED"
  else "CAUTION"

/-! ### Helper lemmas on the Comparator -/

theorem zipWith_self_eq_map {α γ : Type} (f : α → α → γ) :
    ∀ l : List α, List.zipWith f l l = l.map fun a => f a a
  | [] => rfl
  | a :: l => by simp [zipWith_self_eq_map f l]

theorem agreement_sum_eq_count :
    ∀ (l₁ l₂ : List ℤ),
      (List.zipWith (fun a b => if a = b then (1:ℚ) else 0) l₁ l₂).sum
        = ((l₁.zip l₂).filter fun p => p.1 == p.2).length
  | [], l₂ => by simp
  | a :: l₁, [] => by simp
  | a :: l₁, b :: l₂ => by
    by_cases h : a = b <;>
      simp [h, agreement_sum_eq_count l₁ l₂, add_comm]

theorem le_foldl_max (l : List ℚ) : ∀ d, d ≤ l.foldl max d := by
  induction l with
  | nil => intro d; simp
  | cons a l ih =>
    intro d
    exact le_trans (le_max_left d a) (ih (max d a))

theorem mem_le_foldl_max (l : List ℚ) : ∀ d, ∀ x ∈ l, x ≤ l.foldl max d := by
  induction l with
  | nil => intro d x hx; simp at hx
  | cons a l ih =>
    intro d x hx
    rcases List.mem_cons.mp hx with h | h
    · subst h
      rw [List.foldl_cons]
      exact le_trans (le_max_right d x) (le_foldl_max l (max d x))
    · exact ih (max d a) x h

theorem foldl_max_mem (l : List ℚ) : ∀ d, l.foldl max d = d ∨ l.foldl max d ∈ l := by
  induction l with
  | nil => intro d; exact Or.inl rfl
  | cons a l ih =>
    intro d
    rcases ih (max d a) with h | h
    · rcases max_choice d a with hm | hm
      · exact Or.inl (by rw [List.foldl_cons, h, hm])
      · exact Or.inr (by rw [List.foldl_cons, h, hm]; exact List.mem_cons_self _ _)
    · exact Or.inr (List.mem_cons_of_mem a h)

theorem npMax_mem (l : List ℚ) (h : l ≠ []) : npMax l ∈ l := by
  cases l with
  | nil => exact absurd rfl h
  | cons d ds =>
    show ds.foldl max d ∈ d :: ds
    rcases foldl_max_mem ds d with hm | hm
    · rw [hm]; exact List.mem_cons_self _ _
    · exact List.mem_cons_of_mem d hm

theorem le_npMax (l : List ℚ) : ∀ x ∈ l, x ≤ npMax l := by
  cases l with
  | nil => intro x hx; simp at hx
  | cons d ds =>
    intro x hx
    show x ≤ ds.foldl max d
    rcases List.mem_cons.mp hx with h | h
    · subst h
      exact le_foldl_max ds x
    · exact mem_le_foldl_max ds d x h

/-! ### Claims about the Comparator -/

/-- C3: the recommendation bucket of `generate_comparison_report` is chosen by
first match in order — agreement ≥ 0.95 and avg diff < 0.05 gives SAFE TO
PROMOTE, otherwise agreement ≥ 0.85 gives REVIEW RECOMMENDED, otherwise
CAUTION — and identical prediction/probability sequences give agreement rate 1,
average probability difference 0 and the SAFE TO PROMOTE bucket. -/
theorem C3_recommendation_bucket_order :
    (∀ c : Comparison,
      (95/100 ≤ c.agreement_rate → c.avg_probability_diff < 5/100 →
        generate_comparison_report c = "SAFE TO PROMOTE") ∧
      (¬(95/100 ≤ c.agreement_rate ∧ c.avg_probability_diff < 5/100) →
        85/100 ≤ c.agreement_rate →
        generate_comparison_report c = "REVIEW RECOMMENDED") ∧
      (¬(95/100 ≤ c.agreement_rate ∧ c.avg_probability_diff < 5/100) →
        c.agreement_rate < 85/100 →
        generate_comparison_report c = "CAUTION")) ∧
    (∀ (preds : List ℤ) (probs : List ℚ), preds ≠ [] →
      (compare_predictions preds preds probs probs).agreement_rate = 1 ∧
      (compare_predictions preds preds probs probs).avg_probability_diff = 0 ∧
      generate_comparison_report (compare_predictions preds preds probs probs)
        = "SAFE TO PROMOTE") := by
  constructor
  · intro c
    refine ⟨fun h1 h2 => ?_, fun hn h85 => ?_, fun hn h85 => ?_⟩
    · rw [generate_comparison_report, if_pos ⟨h1, h2⟩]
    · rw [generate_comparison_report, if_neg hn, if_pos h85]
    · rw [generate_comparison_report, if_neg hn, if_neg (not_le.mpr h85)]
  · intro preds probs hne
    have hlen : (preds.length : ℚ) ≠ 0 :=
      Nat.cast_ne_zero.mpr (fun h0 => hne (List.length_eq_zero.mp h0))
    have hagree : (compare_predictions preds preds probs probs).agreement_rate = 1 := by
      have hz : List.zipWith (fun a b => if a = b then (1:ℚ) else 0) preds preds
          = preds.map fun _ => (1:ℚ) := by
        rw [zipWith_self_eq_map]
        simp
      show (List.zipWith (fun a b => if a = b then (1:ℚ) else 0) preds preds).sum
          / preds.length = 1
      rw [hz, List.map_const', List.sum_replicate, nsmul_eq_mul, mul_one,
        div_self hlen]
    have hdiff : (compare_predictions preds preds probs probs).avg_probability_diff
        = 0 := by
      have hz : List.zipWith (fun a b => |a - b|) probs probs
          = probs.map fun _ => (0:ℚ) := by
        rw [zipWith_self_eq_map]
        simp
      show (List.zipWith (fun a b => |a - b|) probs probs).sum / probs.length = 0
      rw [hz, List.map_const', List.sum_replicate, smul_zero, zero_div]
    refine ⟨hagree, hdiff, ?_⟩
    rw [generate_comparison_report, hagree, hdiff, if_pos (by norm_num)]

/-- Witness for C3: a concrete identical pair of sequences. -/
theorem C3_recommendation_bucket_order_witness :
    (compare_predictions [1, 0] [1, 0] [1/2, 3/10] [1/2, 3/10]).agreement_rate
      = 1 ∧
    (compare_predictions [1, 0] [1, 0] [1/2, 3/10] [1/2, 3/10]).avg_probability_diff
      = 0 ∧
    generate_comparison_report
      (compare_predictions [1, 0] [1, 0] [1/2, 3/10] [1/2, 3/10])
      = "SAFE TO PROMOTE" :=
  C3_recommendation_bucket_order.2 [1, 0] [1/2, 3/10] (by simp)

/-- C4: `compare_predictions` computes the agreement rate as the fraction of
positions with equal predictions, the average probability difference as the
mean of the absolute differences, and the maximum as their maximum; on the
spec's example inputs it returns exactly 0.8, 0.06 and 0.1. -/
theorem C4_comparator_statistics :
    (∀ (cp hp : List ℤ) (cq hq : List ℚ), cp.length = hp.length → cp ≠ [] →
      (compare_predictions cp hp cq hq).agreement_rate
        = (((cp.zip hp).filter fun p => p.1 == p.2).length : ℚ) / cp.length) ∧
    (∀ (cp hp : List ℤ) (cq hq : List ℚ), cq.length = hq.length → cq ≠ [] →
      (compare_predictions cp hp cq hq).avg_probability_diff
        = ((cq.zip hq).map fun p => |p.1 - p.2|).sum / cq.length) ∧
    (∀ (cp hp : List ℤ) (cq hq : List ℚ), cq.length = hq.length → cq ≠ [] →
      ((compare_predictions cp hp cq hq).max_probability_diff
          ∈ (cq.zip hq).map fun p => |p.1 - p.2|) ∧
      ∀ d ∈ (cq.zip hq).map fun p => |p.1 - p.2|,
        d ≤ (compare_predictions cp hp cq hq).max_probability_diff) ∧
    (compare_predictions [0, 1, 1, 0, 1] [0, 1, 0, 0, 1]
        [1/5, 4/5, 3/5, 3/10, 9/10] [1/4, 3/4, 7/10, 7/20, 17/20]).agreement_rate
      = 4/5 ∧
    (compare_predictions [0, 1, 1, 0, 1] [0, 1, 0, 0, 1]
        [1/5, 4/5, 3/5, 3/10, 9/10]
        [1/4, 3/4, 7/10, 7/20, 17/20]).avg_probability_diff = 3/50 ∧
    (compare_predictions [0, 1, 1, 0, 1] [0, 1, 0, 0, 1]
        [1/5, 4/5, 3/5, 3/10, 9/10]
        [1/4, 3/4, 7/10, 7/20, 17/20]).max_probability_diff = 1/10 := by
  have hmapzip : ∀ (cq hq : List ℚ),
      List.zipWith (fun a b => |a - b|) cq hq
        = (cq.zip hq).map fun p => |p.1 - p.2| := by
    intro cq hq
    induction cq generalizing hq with
    | nil => simp
    | cons a l ih =>
      cases hq with
      | nil => simp
      | cons b m => simp [ih]
  refine ⟨?_, ?_, ?_, ?_, ?_, ?_⟩
  · intro cp hp cq hq _ _
    show (List.zipWith (fun a b => if a = b then (1:ℚ) else 0) cp hp).sum
        / cp.length = _
    rw [agreement_sum_eq_count]
  · intro cp hp cq hq _ _
    show (List.zipWith (fun a b => |a - b|) cq hq).sum / cq.length = _
    rw [hmapzip]
  · intro cp hp cq hq hlen hne
    have hz : List.zipWith (fun a b => |a - b|) cq hq ≠ [] := by
      cases cq with
      | nil => exact absurd rfl hne
      | cons a l =>
        cases hq with
        | nil => exact absurd hlen (by simp)
        | cons b m => simp
    constructor
    · show npMax (List.zipWith (fun a b => |a - b|) cq hq) ∈ _
      rw [← hmapzip]
      exact npMax_mem _ hz
    · intro d hd
      show d ≤ npMax (List.zipWith (fun a b => |a - b|) cq hq)
      exact le_npMax _ d (by rw [hmapzip]; exact hd)
  · show (List.zipWith (fun a b => if a = b then (1:ℚ) else 0)
        ([0, 1, 1, 0, 1] : List ℤ) [0, 1, 0, 0, 1]).sum / 5 = 4/5
    norm_num [List.zipWith]
  · show (List.zipWith (fun a b => |a - b|)
        ([1/5, 4/5, 3/5, 3/10, 9/10] : List ℚ)
        [1/4, 3/4, 7/10, 7/20, 17/20]).sum / 5 = 3/50
    norm_num [List.zipWith, abs_of_nonneg, abs_of_nonpos]
  · show npMax (List.zipWith (fun a b => |a - b|)
        ([1/5, 4/5, 3/5, 3/10, 9/10] : List ℚ)
        [1/4, 3/4, 7/10, 7/20, 17/20]) = 1/10
    norm_num [List.zipWith, npMax, abs_of_nonneg, abs_of_nonpos, max_def]

/-- Witness for C4: the agreement-rate formula applied at the spec's example
predictions. -/
theorem C4_comparator_statistics_witness :
    (compare_predictions [0, 1, 1, 0, 1] [0, 1, 0, 0, 1]
        [1/5, 4/5, 3/5, 3/10, 9/10] [1/4, 3/4, 7/10, 7/20, 17/20]).agreement_rate
      = (((([0, 1, 1, 0, 1] : List ℤ).zip ([0, 1, 0, 0, 1] : List ℤ)).filter
            fun p => p.1 == p.2).length : ℚ)
        / ([0, 1, 1, 0, 1] : List ℤ).length :=
  C4_comparator_statistics.1 _ _ _ _ rfl (by simp)

/-! ### Cross-workspace export/import
(`scripts/promote_cross_workspace.py`, `src/pipelines/import_model.py`) -/

/-- The slice of a registry model version the exporter reads: its number and
its metric metadata (`model_version.number`, `model_version.run_metadata`). -/
structure ModelVersion where
  number : ℕ
  run_metadata : Metrics
deriving DecidableEq, Repr

/-- One entry of the manifest's `promotion_chain`.  The exporter writes
`{action: "exported", from_workspace, from_version, timestamp}`
(`promote_cross_workspace.py`, lines 235–242); the importer appends
`{action: "imported", to_workspace, to_stage, timestamp}` (lines 387–392), to
which `log_cross_workspace_metadata` may later add an `import_run_url`
(`import_model.py`, lines 222–228). -/
inductive ChainEntry where
  | exported (from_workspace : String) (from_version : ℕ) (timestamp : String)
  | imported (to_workspace : String) (to_stage : String) (timestamp : String)
      (import_run_url : Option String)
deriving DecidableEq, Repr

/-- The `action` field of a chain entry. -/
def ChainEntry.action : ChainEntry → String
  | .exported .. => "exported"
  | .imported .. => "imported"

/-- The export manifest (`promote_cross_workspace.py`, lines 211–243), with the
object-storage paths and pipeline-run links abstracted away; `metrics` is the
snapshot extracted from the source version's metadata. -/
structure Manifest where
  model_name : String
  export_timestamp : String
  source_workspace : String
  source_model_version : ℕ
  source_stage : String
  metrics : Metrics
  promotion_chain : List ChainEntry
deriving DecidableEq, Repr

/-- `export_model` (`promote_cross_workspace.py`, lines 144–278), restricted to
the manifest it constructs and returns: the metrics snapshot is copied from the
model version's metadata and the promotion chain starts with the single
`exported` entry. -/
def export_model (mv : ModelVersion) (model_name source_stage source_workspace
    timestamp : String) : Manifest :=
  { model_name := model_name
  , export_timestamp := timestamp
  , source_workspace := source_workspace
  , source_model_version := mv.number
  , source_stage := source_stage
  , metrics := mv.run_metadata
  , promotion_chain := [.exported source_workspace mv.number timestamp] }

/-- The chain append performed by `import_model`
(`promote_cross_workspace.py`, lines 386–392):
`manifest["promotion_chain"].append({"action": "imported", ...})`. -/
def append_import_entry (m : Manifest) (dest_workspace dest_stage
    timestamp : String) : Manifest :=
  { m with promotion_chain :=
      m.promotion_chain ++ [.imported dest_workspace dest_stage timestamp none] }

/-- The in-place update of the last chain entry by
`log_cross_workspace_metadata` (`import_model.py`, lines 222–228): when the
last entry is the `imported` action and a run URL was built, the URL is stored
on that entry; otherwise the chain is untouched. -/
def set_last_import_url (chain : List ChainEntry) (url : Option String) :
    List ChainEntry :=
  match chain.getLast?, url with
  | some (.imported ws st ts _), some u => chain.dropLast ++ [.imported ws st ts (some u)]
  | _, _ => chain

/-- What the destination workspace ends up with after the import pipeline's
metadata step. -/
structure ImportRecord where
  dest_metrics : Metrics
  dest_chain : List ChainEntry
deriving DecidableEq, Repr

/-- `log_cross_workspace_metadata` (`import_model.py`, lines 169–253): the
manifest metrics are logged verbatim onto the destination model version when
nonempty (`if metrics: log_metadata(metadata=metrics, ...)` — an empty dict
logs nothing, leaving the destination metrics map empty), and the promotion
chain — with the run URL patched into its final `imported` entry — is logged
as lineage.  The registry write itself (`log_metadata`) is external to the
repository; the destination metadata is modelled as exactly the logged dict. -/
def log_cross_workspace_metadata (m : Manifest) (import_run_url : Option String) :
    ImportRecord :=
  { dest_metrics := if m.metrics ≠ [] then m.metrics else []
  , dest_chain := set_last_import_url m.promotion_chain import_run_url }

/-- A Python `TypeError` raised while binding call arguments to a function
signature. -/
inductive CallBindError where
  | unexpectedKeyword (name : String)
  | missingArgument (name : String)
deriving DecidableEq, Repr

/-- The parameters of `import_model_pipeline`
(`src/pipelines/import_model.py`, lines 292–297), each paired with whether it
has a default: `export_path` and `import_metadata` are required, `has_scaler`
and `dest_stage` default. -/
def import_model_pipeline_params : List (String × Bool) :=
  [("export_path", false), ("import_metadata", false),
   ("has_scaler", true), ("dest_stage", true)]

/-- The keyword arguments the script passes to `import_model_pipeline` at the
call site (`promote_cross_workspace.py`, lines 400–405). -/
def import_model_call_kwargs : List String :=
  ["model_artifact", "scaler_artifact", "import_metadata", "dest_stage"]

/-- Python keyword-argument binding: a keyword naming no parameter raises an
unexpected-keyword `TypeError`; otherwise a required parameter left unbound
raises a missing-argument `TypeError`. -/
def bind_pipeline_call (params : List (String × Bool)) (kwargs : List String) :
    Except CallBindError Unit :=
  match kwargs.find? (fun k => !(params.map fun p => p.1).contains k) with
  | some k => .error (.unexpectedKeyword k)
  | none =>
      match (params.filter fun p => !p.2).find?
          (fun p => !kwargs.contains p.1) with
      | some p => .error (.missingArgument p.1)
      | none => .ok ()

/-- `import_model` (`promote_cross_workspace.py`, lines 329–415), restricted to
the metadata flow: the `imported` chain entry is appended to the in-memory
manifest (line 387), then the script invokes `import_model_pipeline`
(lines 400–405) — with keyword arguments `model_artifact` and `scaler_artifact`
that the pipeline signature (`import_model.py`, lines 292–297) does not
declare, and without its required `export_path`.  The call's binding is
checked as Python would; only a successful binding reaches the pipeline's
metadata step `log_cross_workspace_metadata`. -/
def import_model (m : Manifest) (dest_workspace dest_stage timestamp : String)
    (import_run_url : Option String) : Except CallBindError ImportRecord :=
  match bind_pipeline_call import_model_pipeline_params
      import_model_call_kwargs with
  | .error e => .error e
  | .ok _ =>
      .ok (log_cross_workspace_metadata
        (append_import_entry m dest_workspace dest_stage timestamp)
        import_run_url)

/-! ### Pre-import validation (`validate_for_promotion`) -/

/-- The per-destination-workspace threshold table of `validate_for_promotion`
(`promote_cross_workspace.py`, lines 297–308) — keyed by destination
*workspace* name, unlike the Promotion Gate's per-*stage* table. -/
def cross_requirements (dest_workspace : String) : List (String × ℚ) :=
  if dest_workspace = "enterprise-staging" then
    [("accuracy", 7/10), ("precision", 7/10), ("recall", 7/10)]
  else if dest_workspace = "enterprise-production" then
    [("accuracy", 4/5), ("precision", 4/5), ("recall", 4/5)]
  else []

/-- A failure line of `validate_for_promotion`: either
`"{metric}: missing (required >= {min_value})"` or
`"{metric}: {actual} < {min_value}"`. -/
inductive CrossFailure where
  | missing (metric : String) (required : ℚ)
  | below (metric : String) (actual required : ℚ)
deriving DecidableEq, Repr

/-- The `failures` list of `validate_for_promotion`
(`promote_cross_workspace.py`, lines 312–318). -/
def crossFailuresOf (metrics : Metrics) (dest_workspace : String) :
    List CrossFailure :=
  (cross_requirements dest_workspace).filterMap fun p =>
    match lookupMetric metrics p.1 with
    | none => some (.missing p.1 p.2)
    | some actual => if actual < p.2 then some (.below p.1 actual p.2) else none

/-- `validate_for_promotion` (`promote_cross_workspace.py`, lines 281–326):
raise the aggregated failure list, else return `True`. -/
def validate_for_promotion (metrics : Metrics) (dest_workspace : String) :
    Except (List CrossFailure) Bool :=
  if crossFailuresOf metrics dest_workspace ≠ [] then
    .error (crossFailuresOf metrics dest_workspace)
  else .ok true

/-- The validation phase of the `promote_cross_workspace` command
(lines 565–570): `validate_for_promotion` runs iff a destination workspace is
given and `--skip-validation` is not; `none` means the check was skipped. -/
def validation_phase (manifest_metrics : Metrics) (dest_workspace : Option String)
    (skip_validation : Bool) : Option (Except (List CrossFailure) Bool) :=
  match dest_workspace with
  | some ws =>
      if ¬skip_validation then some (validate_for_promotion manifest_metrics ws)
      else none
  | none => none

/-! ### Claims about export/import and pre-import validation -/

/-- C5 (code bug): for any manifest produced by `export_model`, the import
never yields the claimed destination metrics map and extended promotion chain:
the script invokes `import_model_pipeline` with keyword arguments
`model_artifact`/`scaler_artifact` that the pipeline signature does not
declare — and without its required `export_path` — so argument binding raises
the unexpected-keyword `TypeError` before the metadata step runs. -/
theorem C5_import_invocation_fails (mv : ModelVersion)
    (model_name source_stage source_workspace export_ts : String)
    (dest_workspace dest_stage import_ts : String)
    (import_run_url : Option String) :
    import_model
        (export_model mv model_name source_stage source_workspace export_ts)
        dest_workspace dest_stage import_ts import_run_url
      = .error (.unexpectedKeyword "model_artifact") ∧
    bind_pipeline_call import_model_pipeline_params import_model_call_kwargs
      = .error (.unexpectedKeyword "model_artifact") ∧
    ("export_path", false) ∈ import_model_pipeline_params ∧
    "export_path" ∉ import_model_call_kwargs :=
  ⟨rfl, rfl, by decide, by decide⟩

/-- C8: `validate_for_promotion` applies the same threshold values as the
Promotion Gate (0.70 at staging level, 0.80 at production level, for accuracy,
precision and recall) but keyed by destination *workspace* name — the stage
names themselves hit the empty table; its error lists every missing and every
below-threshold metric; and the `promote_cross_workspace` validation phase is
skipped entirely under `--skip-validation` and runs `validate_for_promotion`
otherwise. -/
theorem C8_cross_workspace_validation :
    (cross_requirements "enterprise-staging" = requirements "staging" ∧
     cross_requirements "enterprise-production" = requirements "production" ∧
     cross_requirements "staging" = [] ∧
     cross_requirements "production" = []) ∧
    (∀ (metrics : Metrics) (ws : String),
      ((∃ mt ∈ cross_requirements ws, lookupMetric metrics mt.1 = none ∨
          ∃ a, lookupMetric metrics mt.1 = some a ∧ a < mt.2) →
        validate_for_promotion metrics ws
          = .error (crossFailuresOf metrics ws)) ∧
      (∀ m t, (m, t) ∈ cross_requirements ws →
        (lookupMetric metrics m = none →
          CrossFailure.missing m t ∈ crossFailuresOf metrics ws) ∧
        (∀ a, lookupMetric metrics m = some a → a < t →
          CrossFailure.below m a t ∈ crossFailuresOf metrics ws))) ∧
    (∀ (metrics : Metrics) (dest : Option String),
      validation_phase metrics dest true = none) ∧
    (∀ (metrics : Metrics) (ws : String),
      validation_phase metrics (some ws) false
        = some (validate_for_promotion metrics ws)) := by
  refine ⟨⟨by rfl, by rfl, by rfl, by rfl⟩, ?_, ?_, ?_⟩
  · intro metrics ws
    have hmem : ∀ m t, (m, t) ∈ cross_requirements ws →
        (lookupMetric metrics m = none →
          CrossFailure.missing m t ∈ crossFailuresOf metrics ws) ∧
        (∀ a, lookupMetric metrics m = some a → a < t →
          CrossFailure.below m a t ∈ crossFailuresOf metrics ws) := by
      intro m t hmt
      refine ⟨fun hnone => ?_, fun a hsome hlt => ?_⟩
      · exact List.mem_filterMap.mpr ⟨(m, t), hmt, by simp [hnone]⟩
      · exact List.mem_filterMap.mpr ⟨(m, t), hmt, by simp [hsome, hlt]⟩
    refine ⟨?_, hmem⟩
    rintro ⟨mt, hmt, hbad⟩
    have hne : crossFailuresOf metrics ws ≠ [] := by
      rcases hbad with hnone | ⟨a, hsome, hlt⟩
      · exact List.ne_nil_of_mem ((hmem mt.1 mt.2 hmt).1 hnone)
      · exact List.ne_nil_of_mem ((hmem mt.1 mt.2 hmt).2 a hsome hlt)
    simp [validate_for_promotion, hne]
  · intro metrics dest
    cases dest <;> simp [validation_phase]
  · intro metrics ws
    simp [validation_phase]

/-- Witness for C8: an empty metrics map bound for `enterprise-production`
fails with accuracy reported missing, while `--skip-validation` bypasses the
check. -/
theorem C8_cross_workspace_validation_witness :
    validate_for_promotion [] "enterprise-production"
      = .error (crossFailuresOf [] "enterprise-production") ∧
    CrossFailure.missing "accuracy" (4/5)
      ∈ crossFailuresOf [] "enterprise-production" ∧
    validation_phase [] (some "enterprise-production") true = none := by
  have hb := C8_cross_workspace_validation.2.1 [] "enterprise-production"
  have hmem : (("accuracy", (4/5 : ℚ)))
      ∈ cross_requirements "enterprise-production" :=
    List.mem_cons_self _ _
  exact ⟨hb.1 ⟨("accuracy", 4/5), hmem, Or.inl rfl⟩,
    (hb.2 "accuracy" (4/5) hmem).1 rfl,
    C8_cross_workspace_validation.2.2.1 [] (some "enterprise-production")⟩

/-! ### Stage-conflict logic of the `promote_model` command
(`scripts/promote_model.py`, lines 242–275) -/

/-- Registry stage state for one model: pairs of (version number, stage).
The external registry guarantees at most one version per stage; the embedding
carries the full assignment so the conflict check and the demotion can be
stated. -/
abbrev RegistryState := List (ℕ × String)

/-- The stage a version currently holds, if any. -/
def stageOf (s : RegistryState) (v : ℕ) : Option String :=
  (s.find? fun p => p.1 == v).map fun p => p.2

/-- `client.get_model_version(model, <target stage>)` (lines 244–249): the
version currently occupying the target stage, `none` when the lookup raises
`KeyError`. -/
def occupantOf (s : RegistryState) (target : String) : Option ℕ :=
  (s.find? fun p => p.2 == target).map fun p => p.1

/-- Modelled from the spec: `model_version.set_stage(stage=..., force=...)`
(line 275) is a call into the external ZenML registry, which is not part of
this repository.  Per the spec (§4.1, §8) the promoted version ends in the
target stage and the previous occupant is demoted out of it. -/
def set_stage (s : RegistryState) (b : ℕ) (target : String) : RegistryState :=
  (s.filter fun p => !(p.1 == b) && !(p.2 == target)) ++ [(b, target)]

/-- The conflict check and promotion of the `promote_model` command
(lines 242–275): if a different version occupies the target stage and `force`
is not set, the conflict `ValueError` is raised *before* any stage write;
with `force` set a demotion warning is logged and the stage is written.
Returns the new registry state together with the warnings logged. -/
def promote_model (s : RegistryState) (b : ℕ) (target : String)
    (force : Bool) : Except String (RegistryState × List String) :=
  match occupantOf s target with
  | some a =>
      if a ≠ b then
        if ¬force then
          .error ("Another model is already in " ++ target ++ " stage")
        else
          .ok (set_stage s b target,
            ["Demoting version " ++ toString a ++ " from " ++ target])
      else .ok (set_stage s b target, [])
  | none => .ok (set_stage s b target, [])

/-! ### Helper lemmas on the registry -/

theorem stageOf_set_stage_self (s : RegistryState) (b : ℕ) (target : String) :
    stageOf (set_stage s b target) b = some target := by
  have hnone : (s.filter fun p => !(p.1 == b) && !(p.2 == target)).find?
      (fun p => p.1 == b) = none := by
    rw [List.find?_eq_none]
    intro x hx
    have hpred := (List.mem_filter.mp hx).2
    simp only [Bool.and_eq_true, Bool.not_eq_true', beq_eq_false_iff_ne] at hpred
    simp [hpred.1]
  show ((set_stage s b target).find? fun p => p.1 == b).map (fun p => p.2)
      = some target
  rw [set_stage, List.find?_append, hnone]
  simp

theorem stageOf_set_stage_other (s : RegistryState) (a b : ℕ) (target : String)
    (hne : a ≠ b) : stageOf (set_stage s b target) a ≠ some target := by
  intro hcontra
  rcases hfind : (set_stage s b target).find? (fun p => p.1 == a) with _ | q
  · rw [stageOf, hfind] at hcontra
    simp at hcontra
  · rw [stageOf, hfind] at hcontra
    simp only [Option.map_some', Option.some.injEq] at hcontra
    have hq1 : q.1 = a := by
      have := List.find?_some hfind
      simpa [beq_iff_eq] using this
    have hqmem := List.mem_of_find?_eq_some hfind
    rcases List.mem_append.mp hqmem with hql | hqr
    · have hpred := (List.mem_filter.mp hql).2
      simp only [Bool.and_eq_true, Bool.not_eq_true', beq_eq_false_iff_ne] at hpred
      exact hpred.2 hcontra
    · have hq : q = (b, target) := by simpa using hqr
      exact hne (by rw [← hq1, hq])

theorem promote_model_eq_of_occupant (s : RegistryState) (a b : ℕ)
    (target : String) (force : Bool) (hocc : occupantOf s target = some a) :
    promote_model s b target force =
      (if a ≠ b then
        if ¬force then
          .error ("Another model is already in " ++ target ++ " stage")
        else
          .ok (set_stage s b target,
            ["Demoting version " ++ toString a ++ " from " ++ target])
      else .ok (set_stage s b target, [])) := by
  unfold promote_model
  rw [hocc]

/-! ### Claim about the stage-conflict logic -/

/-- C6: promoting version `b` into a stage occupied by a different version `a`
raises the conflict error when `force` is not set — before any stage write, so
both versions' stages are untouched — and with `force` set it ends with `b` in
the target stage, `a` demoted out of it, and a warning logged. -/
theorem C6_stage_conflict_and_force (s : RegistryState) (a b : ℕ)
    (target : String) (hocc : occupantOf s target = some a) (hne : a ≠ b) :
    (∃ msg, promote_model s b target false = .error msg) ∧
    (∀ s' warnings, promote_model s b target true = .ok (s', warnings) →
      stageOf s' b = some target ∧ stageOf s' a ≠ some target ∧
        warnings ≠ []) := by
  constructor
  · exact ⟨"Another model is already in " ++ target ++ " stage",
      by simp [promote_model, hocc, hne]⟩
  · intro s' warnings hok
    rw [promote_model_eq_of_occupant s a b target true hocc, if_pos hne,
      if_neg (by simp)] at hok
    have hpair := Except.ok.inj hok
    have hs' : s' = set_stage s b target := (congrArg Prod.fst hpair).symm
    have hw : warnings
        = ["Demoting version " ++ toString a ++ " from " ++ target] :=
      (congrArg Prod.snd hpair).symm
    subst hs'
    subst hw
    exact ⟨stageOf_set_stage_self s b target,
      stageOf_set_stage_other s a b target hne, by simp⟩

/-- Witness for C6: version 1 occupies production; promoting version 2 without
force errors, with force it lands in production and version 1 is out. -/
theorem C6_stage_conflict_and_force_witness :
    stageOf [((2:ℕ), "production")] 2 = some "production" ∧
    stageOf [((2:ℕ), "production")] 1 ≠ some "production" ∧
    (["Demoting version 1 from production"] : List String) ≠ [] := by
  have h := C6_stage_conflict_and_force [(1, "production")] 1 2 "production"
    (by rfl) (by decide)
  exact h.2 [(2, "production")] ["Demoting version 1 from production"] (by rfl)

/-! ### Platform-governed validation step
(`governance/steps/model_validation.py`) -/

/-- The `failures` list of `validate_model_performance` (lines 58–76): each
check reads `metrics.get(key, 0)` — a missing key silently defaults to the
value 0 — and appends `"{Name} {actual:.3f} < {min:.3f}"`, modelled as the
triple (name, actual, minimum). -/
def perfFailuresOf (metrics : Metrics)
    (min_accuracy min_precision min_recall : ℚ) : List (String × ℚ × ℚ) :=
  (if (lookupMetric metrics "accuracy").getD 0 < min_accuracy then
    [("Accuracy", (lookupMetric metrics "accuracy").getD 0, min_accuracy)]
  else []) ++
  ((if (lookupMetric metrics "precision").getD 0 < min_precision then
    [("Precision", (lookupMetric metrics "precision").getD 0, min_precision)]
  else []) ++
  (if (lookupMetric metrics "recall").getD 0 < min_recall then
    [("Recall", (lookupMetric metrics "recall").getD 0, min_recall)]
  else []))

/-- `validate_model_performance` (`governance/steps/model_validation.py`,
lines 32–91): raise the aggregated failures, else return `True`.  Unlike the
Promotion Gate it has no missing-metric error shape at all. -/
def validate_model_performance (metrics : Metrics)
    (min_accuracy min_precision min_recall : ℚ) :
    Except (List (String × ℚ × ℚ)) Bool :=
  if perfFailuresOf metrics min_accuracy min_precision min_recall ≠ [] then
    .error (perfFailuresOf metrics min_accuracy min_precision min_recall)
  else .ok true

/-- C10: with positive minimum thresholds, `validate_model_performance` treats
a missing accuracy/precision/recall key as the value 0 and fails with a
below-threshold entry reporting actual value 0 for each missing key — it has no
distinct missing-metric error — whereas `validate_promotion` in
`promote_model.py` raises its explicit missing-metrics error on the same map,
for every stage. -/
theorem C10_governance_missing_metric_defaults_to_zero (metrics : Metrics)
    (minA minP minR : ℚ) (hA : 0 < minA) (hP : 0 < minP) (hR : 0 < minR)
    (hmiss : lookupMetric metrics "accuracy" = none ∨
      lookupMetric metrics "precision" = none ∨
      lookupMetric metrics "recall" = none) :
    (validate_model_performance metrics minA minP minR
        = .error (perfFailuresOf metrics minA minP minR) ∧
      (lookupMetric metrics "accuracy" = none →
        ("Accuracy", (0:ℚ), minA) ∈ perfFailuresOf metrics minA minP minR) ∧
      (lookupMetric metrics "precision" = none →
        ("Precision", (0:ℚ), minP) ∈ perfFailuresOf metrics minA minP minR) ∧
      (lookupMetric metrics "recall" = none →
        ("Recall", (0:ℚ), minR) ∈ perfFailuresOf metrics minA minP minR)) ∧
    (∀ stage, validate_promotion metrics stage
        = .error (.missingMetrics (missingOf metrics)) ∧
      missingOf metrics ≠ []) := by
  have hmemA : lookupMetric metrics "accuracy" = none →
      ("Accuracy", (0:ℚ), minA) ∈ perfFailuresOf metrics minA minP minR := by
    intro hnone
    simp [perfFailuresOf, hnone, hA]
  have hmemP : lookupMetric metrics "precision" = none →
      ("Precision", (0:ℚ), minP) ∈ perfFailuresOf metrics minA minP minR := by
    intro hnone
    simp [perfFailuresOf, hnone, hP]
  have hmemR : lookupMetric metrics "recall" = none →
      ("Recall", (0:ℚ), minR) ∈ perfFailuresOf metrics minA minP minR := by
    intro hnone
    simp [perfFailuresOf, hnone, hR]
  have hne : perfFailuresOf metrics minA minP minR ≠ [] := by
    rcases hmiss with h | h | h
    · exact List.ne_nil_of_mem (hmemA h)
    · exact List.ne_nil_of_mem (hmemP h)
    · exact List.ne_nil_of_mem (hmemR h)
  have hgne : missingOf metrics ≠ [] := by
    rcases hmiss with h | h | h
    · have hm : "accuracy" ∈ missingOf metrics :=
        List.mem_filter.mpr ⟨by decide, by simp [h]⟩
      exact List.ne_nil_of_mem hm
    · have hm : "precision" ∈ missingOf metrics :=
        List.mem_filter.mpr ⟨by decide, by simp [h]⟩
      exact List.ne_nil_of_mem hm
    · have hm : "recall" ∈ missingOf metrics :=
        List.mem_filter.mpr ⟨by decide, by simp [h]⟩
      exact List.ne_nil_of_mem hm
  exact ⟨⟨by simp [validate_model_performance, hne], hmemA, hmemP, hmemR⟩,
    fun stage => ⟨validate_promotion_error_of_missing metrics stage hgne, hgne⟩⟩

/-- Witness for C10: a map without accuracy fails the governance step with the
value 0.000 reported for Accuracy, while the Promotion Gate raises its
missing-metrics error on the same map. -/
theorem C10_governance_missing_metric_defaults_to_zero_witness :
    ("Accuracy", (0:ℚ), (7/10:ℚ)) ∈ perfFailuresOf
      [("precision", 9/10), ("recall", 9/10)] (7/10) (7/10) (7/10) ∧
    validate_promotion [("precision", 9/10), ("recall", 9/10)] "production"
      = .error (.missingMetrics
          (missingOf [("precision", 9/10), ("recall", 9/10)])) := by
  have h := C10_governance_missing_metric_defaults_to_zero
    [("precision", 9/10), ("recall", 9/10)] (7/10) (7/10) (7/10)
    (by norm_num) (by norm_num) (by norm_num) (Or.inl (by rfl))
  exact ⟨h.1.2.1 (by rfl), (h.2 "production").1⟩
